import Mathlib

/-!
Verification of the deduplication-and-delivery pipeline of the sub_notif
program (src/main.rs), as a shallow embedding in Lean.

Modelling conventions:
- The network is an oracle: a list of transport outcomes consumed one per
  HTTP POST to the gateway.  An exhausted oracle behaves like a non-timeout
  transport error (no delivery, no store change).
- The seen-id store (UnQLite) is a list of id strings plus a failure
  schedule: a list of Bool consumed one per store operation (kv_store and
  commit each consume one); an exhausted schedule means the operation
  succeeds.  A failed operation is unwrapped in the source, which panics;
  the panicked flag models process termination.
- f64 payloads of created_utc are modelled as Int (the claims under study
  depend only on ordering and printing of the value, not on float rounding).
- Console output and observable effects are recorded as an event trace.
-/

namespace SubNotif

/-- Config struct parsed from config.yaml (struct CONFIG in the source). -/
structure CONFIG where
  pushover_token : String
  pushover_user : String
  subreddit : String
deriving DecidableEq, Repr

/-- created_utc is an untagged union of a string and a number
(enum StringOrF64 in the source); the number is modelled as Int. -/
inductive StringOrF64 where
  | str : String → StringOrF64
  | f64 : Int → StringOrF64
deriving DecidableEq, Repr

/-- A fetched post (struct Post in the source). -/
structure Post where
  title : String
  id : String
  created_utc : StringOrF64
deriving DecidableEq, Repr

/-- POST_TIMEOUT_RETRY constant of fn pushover. -/
def POST_TIMEOUT_RETRY : Nat := 3

/-- Outcome of reading and parsing the gateway response body:
resp_ok.text() may fail, serde_json::from_str may fail, or a POResp
with an integer status field is produced. -/
inductive BodyResult where
  | readError : BodyResult
  | parseError : BodyResult
  | parsed : Int → BodyResult
deriving DecidableEq, Repr

/-- An HTTP response from the gateway: whether resp.status().is_success()
holds, and what reading/parsing the body yields. -/
structure HttpResp where
  success : Bool
  body : BodyResult
deriving DecidableEq, Repr

/-- Outcome of one client.post(...).send() call: a timeout error
(err.is_timeout()), some other transport error, or a response. -/
inductive SendResult where
  | timeout : SendResult
  | otherError : SendResult
  | ok : HttpResp → SendResult
deriving DecidableEq, Repr

/-- The form parameters of one gateway POST (the params array in the
source). -/
structure Params where
  token : String
  user : String
  title : String
  message : String
  url : String
  timestamp : String
deriving DecidableEq, Repr

/-- Observable events of a run: console lines and effects, in order. -/
inductive Event where
  | foundNew : Post → Event
  | sent : String → Params → Event
  | timedOut : String → Nat → Event
  | otherErr : String → Event
  | bodyReadErr : String → Event
  | jsonErr : String → Event
  | delivered : String → Event
  | pushedLog : String → Event
deriving DecidableEq, Repr

/-- Program state threaded through the dispatcher: the seen-id store
contents, the event trace, the remaining network oracle, the remaining
store-operation failure schedule, and whether an unwrap panicked. -/
structure St where
  seen : List String
  events : List Event
  net : List SendResult
  storeOps : List Bool
  panicked : Bool
deriving DecidableEq, Repr

/-- Append an event to the trace. -/
def emit (e : Event) (st : St) : St :=
  { st with events := st.events ++ [e] }

/-- Consume one store-operation outcome; an exhausted schedule means
success. -/
def takeStoreOp (st : St) : Bool × St :=
  match st.storeOps with
  | [] => (true, st)
  | b :: rest => (b, { st with storeOps := rest })

/-- db.kv_store(&post.id, "1").unwrap(); db.commit().unwrap();
println!("Successfully pushed {}", post.id).  Each fallible store call
consumes one schedule entry; a failure is unwrapped, i.e. panics. -/
def markSeen (id : String) (st : St) : St :=
  let r1 := takeStoreOp st
  if r1.1 then
    let st1 := { r1.2 with seen := id :: r1.2.seen }
    let r2 := takeStoreOp st1
    if r2.1 then emit (Event.pushedLog id) r2.2
    else { r2.2 with panicked := true }
  else { r1.2 with panicked := true }

/-- The params array built for a post: token, user, the hard-coded title
template, the raw post title as message, the permalink, and the
created_utc value formatted as text. -/
def mkParams (config : CONFIG) (post : Post) : Params :=
  { token := config.pushover_token
    user := config.pushover_user
    title := "New post on r/" ++ "dreamcatcher"
    message := post.title
    url := "https://redd.it/" ++ post.id
    timestamp :=
      match post.created_utc with
      | StringOrF64.str s => s
      | StringOrF64.f64 f => toString f }

/-- Handling of an Ok(resp) from the gateway (lines 228..247 of the
source): only when the HTTP status is a success is the body read and
parsed, and only a parsed status equal to 1 stores the id. -/
def handleResp (id : String) (resp : HttpResp) (st : St) : St :=
  if resp.success then
    match resp.body with
    | BodyResult.readError => emit (Event.bodyReadErr id) st
    | BodyResult.parseError => emit (Event.jsonErr id) st
    | BodyResult.parsed s =>
        if s = 1 then markSeen id (emit (Event.delivered id) st)
        else st
  else st

/-- The retry loop, for attempt in 0..POST_TIMEOUT_RETRY: build params,
POST to the gateway; a timeout retries (consuming one attempt), any other
transport error stops, and a response is handled and then the loop breaks
(the unconditional break at the bottom of the source loop). -/
def sendLoop (config : CONFIG) (post : Post) : Nat → St → St
  | 0, st => st
  | fuel + 1, st =>
      let st1 := emit (Event.sent post.id (mkParams config post)) st
      match st1.net with
      | [] => emit (Event.otherErr post.id) st1
      | SendResult.timeout :: rest =>
          sendLoop config post fuel
            (emit (Event.timedOut post.id (POST_TIMEOUT_RETRY - fuel))
              { st1 with net := rest })
      | SendResult.otherError :: rest =>
          emit (Event.otherErr post.id) { st1 with net := rest }
      | SendResult.ok resp :: rest =>
          handleResp post.id resp { st1 with net := rest }

/-- The body of fn pushover over an already-reversed post list: skip posts
whose id the store contains, otherwise log the find and run the retry
loop.  A panic terminates the process, so no further post is processed. -/
def pushoverList (config : CONFIG) : List Post → St → St
  | [], st => st
  | post :: rest, st =>
      if st.panicked then st
      else if st.seen.contains post.id then pushoverList config rest st
      else
        pushoverList config rest
          (sendLoop config post POST_TIMEOUT_RETRY
            (emit (Event.foundNew post) st))

/-- fn pushover: iterate the batch in reverse (posts.iter().rev()). -/
def pushover (config : CONFIG) (posts : List Post) (st : St) : St :=
  pushoverList config posts.reverse st

/-- One iteration of the loop in fn main: if fetching reddit fails the
cycle is skipped (println, sleep, continue); likewise if fetching
pushshift fails; otherwise the pushshift posts are appended to the reddit
posts and the batch is dispatched. -/
def runCycle (config : CONFIG)
    (redditResult pushshiftResult : Except String (List Post))
    (st : St) : St :=
  match redditResult with
  | Except.error _ => st
  | Except.ok posts =>
      match pushshiftResult with
      | Except.error _ => st
      | Except.ok po_posts => pushover config (posts ++ po_posts) st

/-- Repeated cycles of the main loop, each given its fetch outcomes. -/
def runCycles (config : CONFIG) :
    List (Except String (List Post) × Except String (List Post)) → St → St
  | [], st => st
  | c :: rest, st => runCycles config rest (runCycle config c.1 c.2 st)

/-- Count of gateway logical successes (body status 1 observed) for a
given post id in a trace. -/
def deliveredCount (l : List Event) (id : String) : Nat :=
  (l.filter fun e =>
    match e with
    | Event.delivered j => j == id
    | _ => false).length

/-- Count of gateway POSTs made for a given post id in a trace. -/
def sentForCount (l : List Event) (id : String) : Nat :=
  (l.filter fun e =>
    match e with
    | Event.sent j _ => j == id
    | _ => false).length

/-- Count of all gateway POSTs in a trace. -/
def sentCount (l : List Event) : Nat :=
  (l.filter fun e =>
    match e with
    | Event.sent _ _ => true
    | _ => false).length

/-- The posts the dispatcher picked up as new, in dispatch order. -/
def dispatchedPosts (l : List Event) : List Post :=
  l.filterMap fun e =>
    match e with
    | Event.foundNew p => some p
    | _ => none

/-! Concrete fixtures used by witnesses and counterexamples. -/

/-- Sample configuration with subreddit foo (spec scenario). -/
def cfg0 : CONFIG := { pushover_token := "t", pushover_user := "u", subreddit := "foo" }

/-- Sample post a (spec scenario). -/
def pA : Post := { title := "A", id := "a", created_utc := StringOrF64.f64 100 }

/-- Sample post b with an HTML entity in its title (spec scenario). -/
def pB : Post := { title := "B&amp;B", id := "b", created_utc := StringOrF64.f64 200 }

/-- A gateway response with HTTP success and body status 1. -/
def respOK : HttpResp := { success := true, body := BodyResult.parsed 1 }

/-- A fresh state with a given network oracle and store schedule. -/
def st0 (net : List SendResult) (ops : List Bool) : St :=
  { seen := [], events := [], net := net, storeOps := ops, panicked := false }

/-- The creation-time key of the sample posts. -/
def createdKey (p : Post) : Int :=
  match p.created_utc with
  | StringOrF64.f64 n => n
  | StringOrF64.str _ => 0

/-- Invariant for the no-duplicate-delivery proof: the store schedule is
all-success, no panic happened, the id was delivered at most once, an id
the store does not contain was never delivered, an initially-seen id was
never even POSTed, and an id the store contains was either seen from the
start or delivered exactly once. -/
def Inv (id : String) (seen0 : Bool) (st : St) : Prop :=
  st.storeOps = [] ∧
  st.panicked = false ∧
  deliveredCount st.events id ≤ 1 ∧
  (st.seen.contains id = false → deliveredCount st.events id = 0) ∧
  (seen0 = true → st.seen.contains id = true ∧ sentForCount st.events id = 0) ∧
  (st.seen.contains id = true → seen0 = true ∨ deliveredCount st.events id = 1)

/-- What one run of the retry loop for a post does to the state, given an
all-success store schedule: it appends events that are all about this
post (no new-post line, every POST and every delivery is for this post),
keeps the schedule and the panic flag, and either leaves the seen store
unchanged with no delivery, or prepends exactly this id with exactly one
delivery. -/
def SendOut (p : Post) (st st2 : St) (l : List Event) : Prop :=
  st2.events = st.events ++ l ∧
  st2.storeOps = st.storeOps ∧
  st2.panicked = st.panicked ∧
  (∀ q, Event.foundNew q ∉ l) ∧
  (∀ j pr, Event.sent j pr ∈ l → j = p.id) ∧
  (∀ j, Event.delivered j ∈ l → j = p.id) ∧
  ((st2.seen = st.seen ∧ deliveredCount l p.id = 0) ∨
   (st2.seen = p.id :: st.seen ∧ deliveredCount l p.id = 1))

end SubNotif

namespace SubNotif

/-! Helper lemmas about the event counters. -/

theorem deliveredCount_append (a b : List Event) (id : String) :
    deliveredCount (a ++ b) id = deliveredCount a id + deliveredCount b id := by
  simp [deliveredCount, List.filter_append]

theorem sentForCount_append (a b : List Event) (id : String) :
    sentForCount (a ++ b) id = sentForCount a id + sentForCount b id := by
  simp [sentForCount, List.filter_append]

theorem sentCount_append (a b : List Event) :
    sentCount (a ++ b) = sentCount a + sentCount b := by
  simp [sentCount, List.filter_append]

theorem dispatchedPosts_append (a b : List Event) :
    dispatchedPosts (a ++ b) = dispatchedPosts a ++ dispatchedPosts b := by
  simp [dispatchedPosts]

/-! Step lemmas: how each dispatcher function reduces on a state whose
relevant field is known. -/

theorem emit_seen (e : Event) (st : St) : (emit e st).seen = st.seen := rfl

theorem emit_net (e : Event) (st : St) : (emit e st).net = st.net := rfl

theorem emit_storeOps (e : Event) (st : St) : (emit e st).storeOps = st.storeOps := rfl

theorem emit_panicked (e : Event) (st : St) : (emit e st).panicked = st.panicked := rfl

theorem emit_events (e : Event) (st : St) :
    (emit e st).events = st.events ++ [e] := rfl

theorem markSeen_ok (id : String) (st : St) (h : st.storeOps = []) :
    markSeen id st = emit (Event.pushedLog id) { st with seen := id :: st.seen } := by
  simp [markSeen, takeStoreOp, h]

theorem markSeen_fail (id : String) (st : St) (ops : List Bool)
    (h : st.storeOps = false :: ops) :
    markSeen id st = { st with storeOps := ops, panicked := true } := by
  simp [markSeen, takeStoreOp, h]

theorem markSeen_commit_fail (id : String) (st : St) (ops : List Bool)
    (h : st.storeOps = true :: false :: ops) :
    markSeen id st =
      { st with seen := id :: st.seen, storeOps := ops, panicked := true } := by
  simp [markSeen, takeStoreOp, h]

theorem handleResp_ok_one (id : String) (st : St) :
    handleResp id { success := true, body := BodyResult.parsed 1 } st =
      markSeen id (emit (Event.delivered id) st) := by
  simp [handleResp]

theorem handleResp_nosuccess (id : String) (resp : HttpResp) (st : St)
    (h : resp.success = false) : handleResp id resp st = st := by
  simp [handleResp, h]

theorem sendLoop_zero (config : CONFIG) (post : Post) (st : St) :
    sendLoop config post 0 st = st := rfl

theorem sendLoop_net_nil (config : CONFIG) (post : Post) (fuel : Nat) (st : St)
    (h : st.net = []) :
    sendLoop config post (fuel + 1) st =
      emit (Event.otherErr post.id)
        (emit (Event.sent post.id (mkParams config post)) st) := by
  simp [sendLoop, emit, h]

theorem sendLoop_net_timeout (config : CONFIG) (post : Post) (fuel : Nat) (st : St)
    (rest : List SendResult) (h : st.net = SendResult.timeout :: rest) :
    sendLoop config post (fuel + 1) st =
      sendLoop config post fuel
        (emit (Event.timedOut post.id (POST_TIMEOUT_RETRY - fuel))
          { emit (Event.sent post.id (mkParams config post)) st with net := rest }) := by
  simp [sendLoop, emit, h]

theorem sendLoop_net_other (config : CONFIG) (post : Post) (fuel : Nat) (st : St)
    (rest : List SendResult) (h : st.net = SendResult.otherError :: rest) :
    sendLoop config post (fuel + 1) st =
      emit (Event.otherErr post.id)
        { emit (Event.sent post.id (mkParams config post)) st with net := rest } := by
  simp [sendLoop, emit, h]

theorem sendLoop_net_ok (config : CONFIG) (post : Post) (fuel : Nat) (st : St)
    (resp : HttpResp) (rest : List SendResult)
    (h : st.net = SendResult.ok resp :: rest) :
    sendLoop config post (fuel + 1) st =
      handleResp post.id resp
        { emit (Event.sent post.id (mkParams config post)) st with net := rest } := by
  simp [sendLoop, emit, h]

theorem pushoverList_nil (config : CONFIG) (st : St) :
    pushoverList config [] st = st := rfl

theorem pushoverList_cons_panicked (config : CONFIG) (p : Post) (l : List Post)
    (st : St) (h : st.panicked = true) : pushoverList config (p :: l) st = st := by
  simp [pushoverList, h]

theorem pushoverList_cons_seen (config : CONFIG) (p : Post) (l : List Post)
    (st : St) (hp : st.panicked = false) (h : st.seen.contains p.id = true) :
    pushoverList config (p :: l) st = pushoverList config l st := by
  have h2 : p.id ∈ st.seen := by simpa using h
  simp [pushoverList, hp, h2]

theorem pushoverList_cons_new (config : CONFIG) (p : Post) (l : List Post)
    (st : St) (hp : st.panicked = false) (h : st.seen.contains p.id = false) :
    pushoverList config (p :: l) st =
      pushoverList config l
        (sendLoop config p POST_TIMEOUT_RETRY (emit (Event.foundNew p) st)) := by
  have h2 : p.id ∉ st.seen := by simpa using h
  simp [pushoverList, hp, h2]

theorem sendLoop_full_ok (config : CONFIG) (post : Post) (st : St)
    (resp : HttpResp) (rest : List SendResult)
    (h : st.net = SendResult.ok resp :: rest) :
    sendLoop config post POST_TIMEOUT_RETRY st =
      handleResp post.id resp
        { emit (Event.sent post.id (mkParams config post)) st with net := rest } := by
  rw [show POST_TIMEOUT_RETRY = 2 + 1 from rfl]
  exact sendLoop_net_ok config post 2 st resp rest h

theorem sendLoop_full_other (config : CONFIG) (post : Post) (st : St)
    (rest : List SendResult) (h : st.net = SendResult.otherError :: rest) :
    sendLoop config post POST_TIMEOUT_RETRY st =
      emit (Event.otherErr post.id)
        { emit (Event.sent post.id (mkParams config post)) st with net := rest } := by
  rw [show POST_TIMEOUT_RETRY = 2 + 1 from rfl]
  exact sendLoop_net_other config post 2 st rest h

/-! Claims C7, C8, C9 and the counterexamples for C5 and C6. -/

/-- Claim C7, counterexample: the reddit fetch fails while the pushshift
fetch returns post a and the gateway would accept it, yet the cycle
dispatches nothing at all (no event is produced), contradicting the claim
that the other source is still filtered and dispatched in that cycle. -/
theorem C7_counterexample :
    (runCycle cfg0 (Except.error "reddit fetch failed") (Except.ok [pA])
        (st0 [SendResult.ok respOK] [])).events = [] ∧
    dispatchedPosts (runCycle cfg0 (Except.error "reddit fetch failed")
        (Except.ok [pA]) (st0 [SendResult.ok respOK] [])).events = [] := by
  constructor <;> rfl

/-- Claim C7, amended: a fetch failure in either source causes the whole
cycle to be skipped unchanged; no posts are dispatched that cycle, not
even the posts fetched successfully from the other source. -/
theorem C7_fetch_failure_skips_cycle (config : CONFIG)
    (r ps : Except String (List Post)) (e : String) (st : St) :
    runCycle config (Except.error e) ps st = st ∧
    runCycle config r (Except.error e) st = st := by
  refine ⟨rfl, ?_⟩
  cases r with
  | error _ => rfl
  | ok _ => rfl

/-- Claim C8: with the configured subreddit foo, the rendered title is
the hard-coded New post on r/dreamcatcher, not New post on r/foo as the
spec template requires; the title ignores the configuration. -/
theorem C8_title_hardcoded :
    cfg0.subreddit = "foo" ∧
    (mkParams cfg0 pA).title = "New post on r/dreamcatcher" ∧
    (mkParams cfg0 pA).title ≠ "New post on r/" ++ cfg0.subreddit := by
  refine ⟨rfl, rfl, ?_⟩
  decide

/-- Claim C9, counterexample: for the post with fetched title B&amp;B the
message field is sent verbatim as B&amp;B, not HTML-decoded to B&B as the
claim requires. -/
theorem C9_counterexample :
    pB.title = "B&amp;B" ∧
    (mkParams cfg0 pB).message = "B&amp;B" ∧
    (mkParams cfg0 pB).message ≠ "B&B" := by
  refine ⟨rfl, rfl, ?_⟩
  decide

/-- Claim C9, amended: the message field of every dispatched notification
is the raw post title, with no HTML entity decoding at all. -/
theorem C9_message_is_raw_title (config : CONFIG) (post : Post) :
    (mkParams config post).message = post.title := rfl

/-- Claim C5, counterexample: the gateway confirms delivery of post a but
the first store operation fails; the process panics (the unwrap aborts the
process) instead of logging the anomaly and continuing to run, and the
success line is never printed. -/
theorem C5_counterexample :
    (pushover cfg0 [pA] (st0 [SendResult.ok respOK] [false])).panicked = true ∧
    deliveredCount (pushover cfg0 [pA]
        (st0 [SendResult.ok respOK] [false])).events "a" = 1 ∧
    Event.pushedLog "a" ∉
      (pushover cfg0 [pA] (st0 [SendResult.ok respOK] [false])).events := by
  refine ⟨rfl, rfl, ?_⟩
  decide

/-- Claim C5, amended: when a store operation fails after the gateway
confirmed delivery, the unwrap panics and the process terminates; in
either failure position the success line is never logged, the delivered
post is not re-delivered before termination, and no later post of the
batch is processed.  A failed kv_store write leaves the seen list
unchanged; a failed commit happens after the write, so the id is already
in the in-memory list when the process dies, but the transaction is
never committed and the success line is still never logged. -/
theorem C5_store_failure_panics (config : CONFIG) (p q : Post) (st : St)
    (rest : List SendResult) (ops : List Bool)
    (hnet : st.net = SendResult.ok { success := true, body := BodyResult.parsed 1 } :: rest)
    (hpan : st.panicked = false)
    (hseen : st.seen.contains p.id = false) :
    (st.storeOps = false :: ops →
      (pushover config [q, p] st).panicked = true ∧
      (pushover config [q, p] st).events =
        st.events ++ [Event.foundNew p, Event.sent p.id (mkParams config p),
          Event.delivered p.id] ∧
      (pushover config [q, p] st).seen = st.seen) ∧
    (st.storeOps = true :: false :: ops →
      (pushover config [q, p] st).panicked = true ∧
      (pushover config [q, p] st).events =
        st.events ++ [Event.foundNew p, Event.sent p.id (mkParams config p),
          Event.delivered p.id] ∧
      (pushover config [q, p] st).seen = p.id :: st.seen) := by
  have hrev : pushover config [q, p] st = pushoverList config [p, q] st := rfl
  have h1 := pushoverList_cons_new config p [q] st hpan hseen
  have h2 := sendLoop_full_ok config p (emit (Event.foundNew p) st)
    { success := true, body := BodyResult.parsed 1 } rest (by simpa [emit] using hnet)
  have h3 := handleResp_ok_one p.id
    ({ emit (Event.sent p.id (mkParams config p)) (emit (Event.foundNew p) st) with
        net := rest })
  constructor
  · intro hops
    have h4 := markSeen_fail p.id
      (emit (Event.delivered p.id)
        { emit (Event.sent p.id (mkParams config p)) (emit (Event.foundNew p) st) with
            net := rest }) ops (by simpa [emit] using hops)
    rw [hrev, h1, h2, h3, h4]
    rw [pushoverList_cons_panicked config q [] _ (by simp [emit])]
    refine ⟨by simp [emit], by simp [emit], by simp [emit]⟩
  · intro hops
    have h4 := markSeen_commit_fail p.id
      (emit (Event.delivered p.id)
        { emit (Event.sent p.id (mkParams config p)) (emit (Event.foundNew p) st) with
            net := rest }) ops (by simpa [emit] using hops)
    rw [hrev, h1, h2, h3, h4]
    rw [pushoverList_cons_panicked config q [] _ (by simp [emit])]
    refine ⟨by simp [emit], by simp [emit], by simp [emit]⟩

/-- Claim C5, witness for the amended statement at a concrete input whose
store schedule makes the write succeed and the commit fail. -/
theorem C5_store_failure_panics_witness :
    ((st0 [SendResult.ok { success := true, body := BodyResult.parsed 1 }] [true, false]).storeOps =
        false :: [] →
      (pushover cfg0 [pB, pA]
          (st0 [SendResult.ok { success := true, body := BodyResult.parsed 1 }] [true, false])).panicked = true ∧
      (pushover cfg0 [pB, pA]
          (st0 [SendResult.ok { success := true, body := BodyResult.parsed 1 }] [true, false])).events =
        (st0 [SendResult.ok { success := true, body := BodyResult.parsed 1 }] [true, false]).events ++
          [Event.foundNew pA, Event.sent pA.id (mkParams cfg0 pA), Event.delivered pA.id] ∧
      (pushover cfg0 [pB, pA]
          (st0 [SendResult.ok { success := true, body := BodyResult.parsed 1 }] [true, false])).seen =
        (st0 [SendResult.ok { success := true, body := BodyResult.parsed 1 }] [true, false]).seen) ∧
    ((st0 [SendResult.ok { success := true, body := BodyResult.parsed 1 }] [true, false]).storeOps =
        true :: false :: [] →
      (pushover cfg0 [pB, pA]
          (st0 [SendResult.ok { success := true, body := BodyResult.parsed 1 }] [true, false])).panicked = true ∧
      (pushover cfg0 [pB, pA]
          (st0 [SendResult.ok { success := true, body := BodyResult.parsed 1 }] [true, false])).events =
        (st0 [SendResult.ok { success := true, body := BodyResult.parsed 1 }] [true, false]).events ++
          [Event.foundNew pA, Event.sent pA.id (mkParams cfg0 pA), Event.delivered pA.id] ∧
      (pushover cfg0 [pB, pA]
          (st0 [SendResult.ok { success := true, body := BodyResult.parsed 1 }] [true, false])).seen =
        pA.id :: (st0 [SendResult.ok { success := true, body := BodyResult.parsed 1 }] [true, false]).seen) :=
  C5_store_failure_panics cfg0 pA pB
    (st0 [SendResult.ok { success := true, body := BodyResult.parsed 1 }] [true, false])
    [] [] rfl rfl rfl

/-- Claim C6, counterexample: the gateway answers with a non-success HTTP
status and a body whose status field is 1, yet the body is never consulted:
the post is not treated as delivered and no seen marker is committed,
contradicting status 1 meaning success regardless of HTTP status class. -/
theorem C6_counterexample :
    (pushover cfg0 [pA]
        (st0 [SendResult.ok { success := false, body := BodyResult.parsed 1 }] [])).seen = [] ∧
    deliveredCount (pushover cfg0 [pA]
        (st0 [SendResult.ok { success := false, body := BodyResult.parsed 1 }] [])).events "a" = 0 ∧
    Event.pushedLog "a" ∉
      (pushover cfg0 [pA]
        (st0 [SendResult.ok { success := false, body := BodyResult.parsed 1 }] [])).events := by
  refine ⟨rfl, rfl, ?_⟩
  decide

/-- Claim C6, amended: a body status of 1 is treated as logical success
only when the HTTP status class is a success.  With an HTTP success and
body status 1 the post is delivered and its marker committed; with a
non-success HTTP status the body is never consulted and nothing is
committed, whatever it contains. -/
theorem C6_body_status_gated_by_http (config : CONFIG) (p : Post) (st : St)
    (rest : List SendResult) (b : BodyResult)
    (hpan : st.panicked = false)
    (hseen : st.seen.contains p.id = false)
    (hops : st.storeOps = []) :
    (st.net = SendResult.ok { success := true, body := BodyResult.parsed 1 } :: rest →
      (pushover config [p] st).seen = p.id :: st.seen ∧
      (pushover config [p] st).events =
        st.events ++ [Event.foundNew p, Event.sent p.id (mkParams config p),
          Event.delivered p.id, Event.pushedLog p.id]) ∧
    (st.net = SendResult.ok { success := false, body := b } :: rest →
      (pushover config [p] st).seen = st.seen ∧
      deliveredCount (pushover config [p] st).events p.id =
        deliveredCount st.events p.id) := by
  constructor
  · intro hnet
    have hrev : pushover config [p] st = pushoverList config [p] st := rfl
    have h1 := pushoverList_cons_new config p [] st hpan hseen
    have h2 := sendLoop_full_ok config p (emit (Event.foundNew p) st)
      { success := true, body := BodyResult.parsed 1 } rest (by simpa [emit] using hnet)
    have h3 := handleResp_ok_one p.id
      ({ emit (Event.sent p.id (mkParams config p)) (emit (Event.foundNew p) st) with
          net := rest })
    have h4 := markSeen_ok p.id
      (emit (Event.delivered p.id)
        { emit (Event.sent p.id (mkParams config p)) (emit (Event.foundNew p) st) with
            net := rest }) (by simpa [emit] using hops)
    rw [hrev, h1, h2, h3, h4, pushoverList_nil]
    refine ⟨by simp [emit], by simp [emit]⟩
  · intro hnet
    have hrev : pushover config [p] st = pushoverList config [p] st := rfl
    have h1 := pushoverList_cons_new config p [] st hpan hseen
    have h2 := sendLoop_full_ok config p (emit (Event.foundNew p) st)
      { success := false, body := b } rest (by simpa [emit] using hnet)
    have h3 := handleResp_nosuccess p.id { success := false, body := b }
      ({ emit (Event.sent p.id (mkParams config p)) (emit (Event.foundNew p) st) with
          net := rest }) rfl
    rw [hrev, h1, h2, h3, pushoverList_nil]
    refine ⟨by simp [emit], ?_⟩
    simp [emit, deliveredCount_append, deliveredCount]

/-- Claim C6, witness for the amended statement at a concrete input. -/
theorem C6_body_status_gated_by_http_witness :
    ((st0 [SendResult.ok respOK] []).net =
        SendResult.ok { success := true, body := BodyResult.parsed 1 } :: [] →
      (pushover cfg0 [pA] (st0 [SendResult.ok respOK] [])).seen =
        pA.id :: (st0 [SendResult.ok respOK] []).seen ∧
      (pushover cfg0 [pA] (st0 [SendResult.ok respOK] [])).events =
        (st0 [SendResult.ok respOK] []).events ++
          [Event.foundNew pA, Event.sent pA.id (mkParams cfg0 pA),
            Event.delivered pA.id, Event.pushedLog pA.id]) ∧
    ((st0 [SendResult.ok respOK] []).net =
        SendResult.ok { success := false, body := BodyResult.parsed 1 } :: [] →
      (pushover cfg0 [pA] (st0 [SendResult.ok respOK] [])).seen =
        (st0 [SendResult.ok respOK] []).seen ∧
      deliveredCount (pushover cfg0 [pA] (st0 [SendResult.ok respOK] [])).events pA.id =
        deliveredCount (st0 [SendResult.ok respOK] []).events pA.id) :=
  C6_body_status_gated_by_http cfg0 pA (st0 [SendResult.ok respOK] [])
    [] (BodyResult.parsed 1) rfl rfl rfl

/-- Claim C10: when a response arrives whose HTTP status is not a success,
or whose body cannot be read, fails to parse, or parses to a status other
than 1, the post id is not stored, the loop exits after that single
attempt (exactly one more POST, exactly one oracle entry consumed), the
process does not panic, and the post stays unseen. -/
theorem C10_bad_response_single_attempt (config : CONFIG) (p : Post) (st : St)
    (resp : HttpResp) (rest : List SendResult)
    (hnet : st.net = SendResult.ok resp :: rest)
    (hbad : ¬(resp.success = true ∧ resp.body = BodyResult.parsed 1))
    (hpan : st.panicked = false)
    (hseen : st.seen.contains p.id = false) :
    (pushover config [p] st).seen = st.seen ∧
    (pushover config [p] st).net = rest ∧
    deliveredCount (pushover config [p] st).events p.id =
      deliveredCount st.events p.id ∧
    sentCount (pushover config [p] st).events = sentCount st.events + 1 ∧
    (pushover config [p] st).panicked = false := by
  have hrev : pushover config [p] st = pushoverList config [p] st := rfl
  have h1 := pushoverList_cons_new config p [] st hpan hseen
  have h2 := sendLoop_full_ok config p (emit (Event.foundNew p) st) resp rest
    (by simpa [emit] using hnet)
  rw [hrev, h1, h2, pushoverList_nil]
  cases hsucc : resp.success with
  | false =>
      rw [handleResp_nosuccess p.id resp _ hsucc]
      refine ⟨by simp [emit], by simp [emit], ?_, ?_, by simp [emit, hpan]⟩
      · simp [emit, deliveredCount_append, deliveredCount]
      · simp [emit, sentCount_append, sentCount]
  | true =>
      cases hbody : resp.body with
      | readError =>
          have h3 : handleResp p.id resp
              ({ emit (Event.sent p.id (mkParams config p)) (emit (Event.foundNew p) st) with
                  net := rest }) =
              emit (Event.bodyReadErr p.id)
                ({ emit (Event.sent p.id (mkParams config p)) (emit (Event.foundNew p) st) with
                    net := rest }) := by
            simp [handleResp, hsucc, hbody]
          rw [h3]
          refine ⟨by simp [emit], by simp [emit], ?_, ?_, by simp [emit, hpan]⟩
          · simp [emit, deliveredCount_append, deliveredCount]
          · simp [emit, sentCount_append, sentCount]
      | parseError =>
          have h3 : handleResp p.id resp
              ({ emit (Event.sent p.id (mkParams config p)) (emit (Event.foundNew p) st) with
                  net := rest }) =
              emit (Event.jsonErr p.id)
                ({ emit (Event.sent p.id (mkParams config p)) (emit (Event.foundNew p) st) with
                    net := rest }) := by
            simp [handleResp, hsucc, hbody]
          rw [h3]
          refine ⟨by simp [emit], by simp [emit], ?_, ?_, by simp [emit, hpan]⟩
          · simp [emit, deliveredCount_append, deliveredCount]
          · simp [emit, sentCount_append, sentCount]
      | parsed s =>
          have hs : ¬s = 1 := by
            intro h
            exact hbad ⟨hsucc, by rw [hbody, h]⟩
          have h3 : handleResp p.id resp
              ({ emit (Event.sent p.id (mkParams config p)) (emit (Event.foundNew p) st) with
                  net := rest }) =
              { emit (Event.sent p.id (mkParams config p)) (emit (Event.foundNew p) st) with
                  net := rest } := by
            simp [handleResp, hsucc, hbody, hs]
          rw [h3]
          refine ⟨by simp [emit], by simp [emit], ?_, ?_, by simp [emit, hpan]⟩
          · simp [emit, deliveredCount_append, deliveredCount]
          · simp [emit, sentCount_append, sentCount]

/-! Trace lemmas: which events each function can append. -/

theorem deliveredCount_eq_zero {l : List Event} {id : String}
    (h : Event.delivered id ∉ l) : deliveredCount l id = 0 := by
  rw [deliveredCount, List.length_eq_zero, List.filter_eq_nil_iff]
  intro e he
  cases e with
  | delivered j =>
      intro hb
      exact h (by rwa [eq_of_beq hb] at he)
  | foundNew p => simp
  | sent j pr => simp
  | timedOut j n => simp
  | otherErr j => simp
  | bodyReadErr j => simp
  | jsonErr j => simp
  | pushedLog j => simp

theorem sentForCount_eq_zero {l : List Event} {id : String}
    (h : ∀ pr, Event.sent id pr ∉ l) : sentForCount l id = 0 := by
  rw [sentForCount, List.length_eq_zero, List.filter_eq_nil_iff]
  intro e he
  cases e with
  | sent j pr =>
      intro hb
      exact h pr (by rwa [eq_of_beq hb] at he)
  | foundNew p => simp
  | delivered j => simp
  | timedOut j n => simp
  | otherErr j => simp
  | bodyReadErr j => simp
  | jsonErr j => simp
  | pushedLog j => simp

theorem sentCount_eq_zero {l : List Event}
    (h : ∀ j pr, Event.sent j pr ∉ l) : sentCount l = 0 := by
  rw [sentCount, List.length_eq_zero, List.filter_eq_nil_iff]
  intro e he
  cases e with
  | sent j pr => exact absurd he (h j pr)
  | foundNew p => simp
  | delivered j => simp
  | timedOut j n => simp
  | otherErr j => simp
  | bodyReadErr j => simp
  | jsonErr j => simp
  | pushedLog j => simp

theorem dispatchedPosts_eq_nil {l : List Event}
    (h : ∀ q, Event.foundNew q ∉ l) : dispatchedPosts l = [] := by
  rw [dispatchedPosts, List.filterMap_eq_nil_iff]
  intro e he
  cases e with
  | foundNew p => exact absurd he (h p)
  | sent j pr => rfl
  | delivered j => rfl
  | timedOut j n => rfl
  | otherErr j => rfl
  | bodyReadErr j => rfl
  | jsonErr j => rfl
  | pushedLog j => rfl

theorem markSeen_events (id : String) (st : St) :
    ∃ l, (markSeen id st).events = st.events ++ l ∧
      ∀ e ∈ l, e = Event.pushedLog id := by
  cases hops : st.storeOps with
  | nil =>
      refine ⟨[Event.pushedLog id], ?_, ?_⟩
      · rw [markSeen_ok id st hops]; rfl
      · intro e he; simpa using he
  | cons b rest =>
      cases b with
      | false =>
          refine ⟨[], ?_, ?_⟩
          · rw [markSeen_fail id st rest hops]; simp
          · simp
      | true =>
          cases rest with
          | nil =>
              exact ⟨[Event.pushedLog id],
                by simp [markSeen, takeStoreOp, hops, emit],
                by simp⟩
          | cons b2 r2 =>
              cases b2 with
              | true =>
                  exact ⟨[Event.pushedLog id],
                    by simp [markSeen, takeStoreOp, hops, emit],
                    by simp⟩
              | false =>
                  exact ⟨[],
                    by simp [markSeen, takeStoreOp, hops, emit],
                    by simp⟩

theorem handleResp_events (id : String) (resp : HttpResp) (st : St) :
    ∃ l, (handleResp id resp st).events = st.events ++ l ∧
      (∀ j pr, Event.sent j pr ∉ l) ∧
      (∀ q, Event.foundNew q ∉ l) ∧
      (∀ j, Event.delivered j ∈ l → j = id) := by
  cases hsucc : resp.success with
  | false =>
      rw [handleResp_nosuccess id resp st hsucc]
      exact ⟨[], by simp, by simp, by simp, by simp⟩
  | true =>
      cases hbody : resp.body with
      | readError =>
          refine ⟨[Event.bodyReadErr id], ?_, by simp, by simp, by simp⟩
          simp [handleResp, hsucc, hbody, emit]
      | parseError =>
          refine ⟨[Event.jsonErr id], ?_, by simp, by simp, by simp⟩
          simp [handleResp, hsucc, hbody, emit]
      | parsed s =>
          by_cases hs : s = 1
          · obtain ⟨l2, hev2, hall2⟩ :=
              markSeen_events id (emit (Event.delivered id) st)
            refine ⟨Event.delivered id :: l2, ?_, ?_, ?_, ?_⟩
            · have : handleResp id resp st =
                  markSeen id (emit (Event.delivered id) st) := by
                simp [handleResp, hsucc, hbody, hs]
              rw [this, hev2]
              simp [emit]
            · intro j pr hm
              rcases List.mem_cons.mp hm with h1 | h1
              · exact absurd h1 (by simp)
              · exact absurd (hall2 _ h1) (by simp)
            · intro q hm
              rcases List.mem_cons.mp hm with h1 | h1
              · exact absurd h1 (by simp)
              · exact absurd (hall2 _ h1) (by simp)
            · intro j hm
              rcases List.mem_cons.mp hm with h1 | h1
              · exact (Event.delivered.injEq j id).mp h1
              · exact absurd (hall2 _ h1) (by simp)
          · have : handleResp id resp st = st := by
              simp [handleResp, hsucc, hbody, hs]
            rw [this]
            exact ⟨[], by simp, by simp, by simp, by simp⟩

theorem sendLoop_events (config : CONFIG) (post : Post) :
    ∀ (fuel : Nat) (st : St),
      ∃ l, (sendLoop config post fuel st).events = st.events ++ l ∧
        (∀ q, Event.foundNew q ∉ l) ∧
        (∀ j pr, Event.sent j pr ∈ l → j = post.id) ∧
        (∀ j, Event.delivered j ∈ l → j = post.id) ∧
        sentCount l ≤ fuel := by
  intro fuel
  induction fuel with
  | zero =>
      intro st
      exact ⟨[], by simp [sendLoop_zero], by simp, by simp, by simp,
        by simp [sentCount]⟩
  | succ fuel ih =>
      intro st
      cases hnet : st.net with
      | nil =>
          rw [sendLoop_net_nil config post fuel st hnet]
          refine ⟨[Event.sent post.id (mkParams config post),
            Event.otherErr post.id], by simp [emit], by simp, ?_, by simp, ?_⟩
          · intro j pr hm
            rcases List.mem_cons.mp hm with h1 | h1
            · exact ((Event.sent.injEq j pr post.id (mkParams config post)).mp h1).1
            · simp at h1
          · have h1 : sentCount [Event.sent post.id (mkParams config post),
                Event.otherErr post.id] = 1 := by simp [sentCount]
            omega
      | cons r rest =>
          cases r with
          | timeout =>
              rw [sendLoop_net_timeout config post fuel st rest hnet]
              obtain ⟨l2, hev2, hfn2, hsent2, hdel2, hcnt2⟩ :=
                ih (emit (Event.timedOut post.id (POST_TIMEOUT_RETRY - fuel))
                  { emit (Event.sent post.id (mkParams config post)) st with net := rest })
              refine ⟨Event.sent post.id (mkParams config post) ::
                Event.timedOut post.id (POST_TIMEOUT_RETRY - fuel) :: l2, ?_, ?_, ?_, ?_, ?_⟩
              · rw [hev2]; simp [emit]
              · intro q hm
                rcases List.mem_cons.mp hm with h1 | h1
                · exact absurd h1 (by simp)
                rcases List.mem_cons.mp h1 with h2 | h2
                · exact absurd h2 (by simp)
                · exact hfn2 q h2
              · intro j pr hm
                rcases List.mem_cons.mp hm with h1 | h1
                · exact ((Event.sent.injEq j pr post.id (mkParams config post)).mp h1).1
                rcases List.mem_cons.mp h1 with h2 | h2
                · exact absurd h2 (by simp)
                · exact hsent2 j pr h2
              · intro j hm
                rcases List.mem_cons.mp hm with h1 | h1
                · exact absurd h1 (by simp)
                rcases List.mem_cons.mp h1 with h2 | h2
                · exact absurd h2 (by simp)
                · exact hdel2 j h2
              · have h1 : sentCount (Event.sent post.id (mkParams config post) ::
                    Event.timedOut post.id (POST_TIMEOUT_RETRY - fuel) :: l2) =
                    sentCount l2 + 1 := by simp [sentCount]
                rw [h1]
                omega
          | otherError =>
              rw [sendLoop_net_other config post fuel st rest hnet]
              refine ⟨[Event.sent post.id (mkParams config post),
                Event.otherErr post.id], by simp [emit], by simp, ?_, by simp, ?_⟩
              · intro j pr hm
                rcases List.mem_cons.mp hm with h1 | h1
                · exact ((Event.sent.injEq j pr post.id (mkParams config post)).mp h1).1
                · simp at h1
              · have h1 : sentCount [Event.sent post.id (mkParams config post),
                    Event.otherErr post.id] = 1 := by simp [sentCount]
                omega
          | ok resp =>
              rw [sendLoop_net_ok config post fuel st resp rest hnet]
              obtain ⟨l2, hev2, hsent2, hfn2, hdel2⟩ :=
                handleResp_events post.id resp
                  { emit (Event.sent post.id (mkParams config post)) st with net := rest }
              refine ⟨Event.sent post.id (mkParams config post) :: l2, ?_, ?_, ?_, ?_, ?_⟩
              · rw [hev2]; simp [emit]
              · intro q hm
                rcases List.mem_cons.mp hm with h1 | h1
                · exact absurd h1 (by simp)
                · exact hfn2 q h1
              · intro j pr hm
                rcases List.mem_cons.mp hm with h1 | h1
                · exact ((Event.sent.injEq j pr post.id (mkParams config post)).mp h1).1
                · exact absurd h1 (hsent2 j pr)
              · intro j hm
                rcases List.mem_cons.mp hm with h1 | h1
                · exact absurd h1 (by simp)
                · exact hdel2 j h1
              · have h0 : sentCount l2 = 0 := sentCount_eq_zero hsent2
                have h1 : sentCount (Event.sent post.id (mkParams config post) :: l2) =
                    sentCount l2 + 1 := by simp [sentCount]
                rw [h1]
                omega

/-- Claim C10, witness at a concrete input: HTTP success with body status
0 is one of the rejected cases. -/
theorem C10_bad_response_single_attempt_witness :
    (pushover cfg0 [pA]
        (st0 [SendResult.ok { success := true, body := BodyResult.parsed 0 }] [])).seen =
      (st0 [SendResult.ok { success := true, body := BodyResult.parsed 0 }] []).seen ∧
    (pushover cfg0 [pA]
        (st0 [SendResult.ok { success := true, body := BodyResult.parsed 0 }] [])).net = [] ∧
    deliveredCount (pushover cfg0 [pA]
        (st0 [SendResult.ok { success := true, body := BodyResult.parsed 0 }] [])).events pA.id =
      deliveredCount (st0 [SendResult.ok { success := true, body := BodyResult.parsed 0 }] []).events pA.id ∧
    sentCount (pushover cfg0 [pA]
        (st0 [SendResult.ok { success := true, body := BodyResult.parsed 0 }] [])).events =
      sentCount (st0 [SendResult.ok { success := true, body := BodyResult.parsed 0 }] []).events + 1 ∧
    (pushover cfg0 [pA]
        (st0 [SendResult.ok { success := true, body := BodyResult.parsed 0 }] [])).panicked = false :=
  C10_bad_response_single_attempt cfg0 pA
    (st0 [SendResult.ok { success := true, body := BodyResult.parsed 0 }] [])
    { success := true, body := BodyResult.parsed 0 } [] rfl (by decide) rfl rfl

/-- Claim C3: the retry loop makes at most 3 POSTs for a post in total,
and a post whose delivery times out exactly twice and then succeeds is
delivered exactly once, with the two timeouts logged as attempts 1 and 2
and the id committed to the store. -/
theorem C3_retry_bound (config : CONFIG) (p : Post) :
    (∀ st : St, sentCount (sendLoop config p POST_TIMEOUT_RETRY st).events ≤
      sentCount st.events + 3) ∧
    (pushover config [p]
        (st0 [SendResult.timeout, SendResult.timeout, SendResult.ok respOK] [])).events =
      [Event.foundNew p, Event.sent p.id (mkParams config p), Event.timedOut p.id 1,
       Event.sent p.id (mkParams config p), Event.timedOut p.id 2,
       Event.sent p.id (mkParams config p), Event.delivered p.id,
       Event.pushedLog p.id] ∧
    deliveredCount (pushover config [p]
        (st0 [SendResult.timeout, SendResult.timeout, SendResult.ok respOK] [])).events p.id = 1 ∧
    (pushover config [p]
        (st0 [SendResult.timeout, SendResult.timeout, SendResult.ok respOK] [])).seen = [p.id] := by
  refine ⟨?_, rfl, ?_, rfl⟩
  · intro st
    obtain ⟨l, hev, _, _, hcnt⟩ := sendLoop_events config p POST_TIMEOUT_RETRY st
    rw [hev, sentCount_append]
    have h3 : POST_TIMEOUT_RETRY = 3 := rfl
    omega
  · have h : (pushover config [p]
        (st0 [SendResult.timeout, SendResult.timeout, SendResult.ok respOK] [])).events =
        [Event.foundNew p, Event.sent p.id (mkParams config p), Event.timedOut p.id 1,
         Event.sent p.id (mkParams config p), Event.timedOut p.id 2,
         Event.sent p.id (mkParams config p), Event.delivered p.id,
         Event.pushedLog p.id] := rfl
    rw [h]
    simp [deliveredCount]

/-! Lemmas on how the seen store can change during one post. -/

theorem markSeen_seen (id : String) (st : St) :
    (markSeen id st).seen = st.seen ∨ (markSeen id st).seen = id :: st.seen := by
  cases hops : st.storeOps with
  | nil => right; rw [markSeen_ok id st hops]; rfl
  | cons b rest =>
      cases b with
      | false => left; rw [markSeen_fail id st rest hops]
      | true =>
          cases rest with
          | nil => right; simp [markSeen, takeStoreOp, hops, emit]
          | cons b2 r2 =>
              cases b2 with
              | true => right; simp [markSeen, takeStoreOp, hops, emit]
              | false => right; simp [markSeen, takeStoreOp, hops, emit]

theorem handleResp_seen (id : String) (resp : HttpResp) (st : St) :
    (handleResp id resp st).seen = st.seen ∨
    (handleResp id resp st).seen = id :: st.seen := by
  cases hsucc : resp.success with
  | false => left; rw [handleResp_nosuccess id resp st hsucc]
  | true =>
      cases hbody : resp.body with
      | readError => left; simp [handleResp, hsucc, hbody, emit]
      | parseError => left; simp [handleResp, hsucc, hbody, emit]
      | parsed s =>
          by_cases hs : s = 1
          · have h : handleResp id resp st =
                markSeen id (emit (Event.delivered id) st) := by
              simp [handleResp, hsucc, hbody, hs]
            rw [h]
            exact markSeen_seen id (emit (Event.delivered id) st)
          · left; simp [handleResp, hsucc, hbody, hs]

theorem sendLoop_seen (config : CONFIG) (post : Post) :
    ∀ (fuel : Nat) (st : St),
      (sendLoop config post fuel st).seen = st.seen ∨
      (sendLoop config post fuel st).seen = post.id :: st.seen := by
  intro fuel
  induction fuel with
  | zero => intro st; left; rfl
  | succ fuel ih =>
      intro st
      cases hnet : st.net with
      | nil => left; rw [sendLoop_net_nil config post fuel st hnet]; rfl
      | cons r rest =>
          cases r with
          | timeout =>
              rw [sendLoop_net_timeout config post fuel st rest hnet]
              exact ih _
          | otherError =>
              left
              rw [sendLoop_net_other config post fuel st rest hnet]
              rfl
          | ok resp =>
              rw [sendLoop_net_ok config post fuel st resp rest hnet]
              exact handleResp_seen post.id resp _

/-- Claim C4: a non-timeout transport error on the first attempt for an
unseen post ends that post after a single POST; the dispatcher continues
with the next post of the reversed batch from exactly that state, the
failed post makes no further POST in the whole cycle, is never delivered,
and its id is still not in the seen store after the cycle. -/
theorem C4_permanent_error_short_circuit (config : CONFIG) (p q : Post) (st : St)
    (rest : List SendResult)
    (hnet : st.net = SendResult.otherError :: rest)
    (hpan : st.panicked = false)
    (hseen : st.seen.contains p.id = false)
    (hq : q.id ≠ p.id) :
    pushover config [q, p] st =
      pushoverList config [q]
        (emit (Event.otherErr p.id)
          { emit (Event.sent p.id (mkParams config p)) (emit (Event.foundNew p) st) with
              net := rest }) ∧
    (pushover config [q, p] st).seen.contains p.id = false ∧
    sentForCount (pushover config [q, p] st).events p.id =
      sentForCount st.events p.id + 1 ∧
    deliveredCount (pushover config [q, p] st).events p.id =
      deliveredCount st.events p.id := by
  have hrev : pushover config [q, p] st = pushoverList config [p, q] st := rfl
  have h1 := pushoverList_cons_new config p [q] st hpan hseen
  have h2 := sendLoop_full_other config p (emit (Event.foundNew p) st) rest
    (by simpa [emit] using hnet)
  have hall : pushover config [q, p] st =
      pushoverList config [q]
        (emit (Event.otherErr p.id)
          { emit (Event.sent p.id (mkParams config p)) (emit (Event.foundNew p) st) with
              net := rest }) := by
    rw [hrev, h1, h2]
  refine ⟨hall, ?_⟩
  set st1 := emit (Event.otherErr p.id)
    { emit (Event.sent p.id (mkParams config p)) (emit (Event.foundNew p) st) with
        net := rest } with hst1
  have hst1seen : st1.seen = st.seen := rfl
  have hst1pan : st1.panicked = false := hpan
  have hst1ev : st1.events = st.events ++ [Event.foundNew p,
      Event.sent p.id (mkParams config p), Event.otherErr p.id] := by
    simp [hst1, emit]
  have hsentfor1 : sentForCount st1.events p.id = sentForCount st.events p.id + 1 := by
    rw [hst1ev, sentForCount_append]
    have : sentForCount [Event.foundNew p, Event.sent p.id (mkParams config p),
        Event.otherErr p.id] p.id = 1 := by simp [sentForCount]
    omega
  have hdel1 : deliveredCount st1.events p.id = deliveredCount st.events p.id := by
    rw [hst1ev, deliveredCount_append]
    have : deliveredCount [Event.foundNew p, Event.sent p.id (mkParams config p),
        Event.otherErr p.id] p.id = 0 := by simp [deliveredCount]
    omega
  rw [hall]
  cases hq2 : st1.seen.contains q.id with
  | true =>
      rw [pushoverList_cons_seen config q [] st1 hst1pan hq2, pushoverList_nil]
      refine ⟨by rw [hst1seen]; exact hseen, hsentfor1, hdel1⟩
  | false =>
      rw [pushoverList_cons_new config q [] st1 hst1pan hq2, pushoverList_nil]
      obtain ⟨l2, hev2, _, hsent2, hdel2, _⟩ :=
        sendLoop_events config q POST_TIMEOUT_RETRY (emit (Event.foundNew q) st1)
      have hsublist : (sendLoop config q POST_TIMEOUT_RETRY
          (emit (Event.foundNew q) st1)).events =
          st1.events ++ ([Event.foundNew q] ++ l2) := by
        rw [hev2]; simp [emit]
      refine ⟨?_, ?_, ?_⟩
      · rcases sendLoop_seen config q POST_TIMEOUT_RETRY (emit (Event.foundNew q) st1)
          with hs | hs
        · rw [hs]
          rw [show (emit (Event.foundNew q) st1).seen = st.seen from hst1seen]
          exact hseen
        · rw [hs, List.contains_cons]
          have hb : (p.id == q.id) = false := beq_eq_false_iff_ne.mpr (fun h => hq h.symm)
          rw [hb]
          simpa [emit, hst1seen] using hseen
      · rw [hsublist, sentForCount_append, sentForCount_append]
        have hz : sentForCount l2 p.id = 0 := by
          apply sentForCount_eq_zero
          intro pr hm
          exact hq (hsent2 p.id pr hm).symm
        have hf : sentForCount [Event.foundNew q] p.id = 0 := by simp [sentForCount]
        omega
      · rw [hsublist, deliveredCount_append, deliveredCount_append]
        have hz : deliveredCount l2 p.id = 0 := by
          apply deliveredCount_eq_zero
          intro hm
          exact hq (hdel2 p.id hm).symm
        have hf : deliveredCount [Event.foundNew q] p.id = 0 := by simp [deliveredCount]
        omega

/-- Claim C4, witness at a concrete input. -/
theorem C4_permanent_error_short_circuit_witness :
    pushover cfg0 [pB, pA] (st0 [SendResult.otherError, SendResult.ok respOK] []) =
      pushoverList cfg0 [pB]
        (emit (Event.otherErr pA.id)
          { emit (Event.sent pA.id (mkParams cfg0 pA))
              (emit (Event.foundNew pA)
                (st0 [SendResult.otherError, SendResult.ok respOK] [])) with
              net := [SendResult.ok respOK] }) ∧
    (pushover cfg0 [pB, pA]
        (st0 [SendResult.otherError, SendResult.ok respOK] [])).seen.contains pA.id = false ∧
    sentForCount (pushover cfg0 [pB, pA]
        (st0 [SendResult.otherError, SendResult.ok respOK] [])).events pA.id =
      sentForCount (st0 [SendResult.otherError, SendResult.ok respOK] []).events pA.id + 1 ∧
    deliveredCount (pushover cfg0 [pB, pA]
        (st0 [SendResult.otherError, SendResult.ok respOK] [])).events pA.id =
      deliveredCount (st0 [SendResult.otherError, SendResult.ok respOK] []).events pA.id :=
  C4_permanent_error_short_circuit cfg0 pA pB
    (st0 [SendResult.otherError, SendResult.ok respOK] [])
    [SendResult.ok respOK] rfl rfl rfl (by decide)

/-! Dispatch-order lemmas for the ordering claim. -/

theorem sendLoop_dispatched (config : CONFIG) (post : Post) (fuel : Nat) (st : St) :
    dispatchedPosts (sendLoop config post fuel st).events =
      dispatchedPosts st.events := by
  obtain ⟨l, hev, hfn, _, _, _⟩ := sendLoop_events config post fuel st
  rw [hev, dispatchedPosts_append, dispatchedPosts_eq_nil hfn, List.append_nil]

theorem pushoverList_dispatched (config : CONFIG) :
    ∀ (l : List Post) (st : St),
      ∃ l2, l2.Sublist l ∧
        dispatchedPosts (pushoverList config l st).events =
          dispatchedPosts st.events ++ l2 := by
  intro l
  induction l with
  | nil => intro st; exact ⟨[], List.nil_sublist [], by simp [pushoverList_nil]⟩
  | cons p rest ih =>
      intro st
      cases hpan : st.panicked with
      | true =>
          rw [pushoverList_cons_panicked config p rest st hpan]
          exact ⟨[], List.nil_sublist _, by simp⟩
      | false =>
          cases hseen : st.seen.contains p.id with
          | true =>
              rw [pushoverList_cons_seen config p rest st hpan hseen]
              obtain ⟨l2, hsub, heq⟩ := ih st
              exact ⟨l2, List.Sublist.cons p hsub, heq⟩
          | false =>
              rw [pushoverList_cons_new config p rest st hpan hseen]
              obtain ⟨l2, hsub, heq⟩ :=
                ih (sendLoop config p POST_TIMEOUT_RETRY (emit (Event.foundNew p) st))
              refine ⟨p :: l2, List.Sublist.cons₂ p hsub, ?_⟩
              rw [heq, sendLoop_dispatched]
              have hemit : dispatchedPosts (emit (Event.foundNew p) st).events =
                  dispatchedPosts st.events ++ [p] := by
                simp [emit, dispatchedPosts_append, dispatchedPosts]
              rw [hemit]
              simp

/-- Claim C2: if the fetched batch is strictly newest-first for a key
measuring creation time (or identifier order), then the posts the
dispatcher picks up, in dispatch order, are strictly oldest-to-newest for
that key: the dispatcher processes the batch in reverse and novelty
filtering only drops elements. -/
theorem C2_dispatch_order (config : CONFIG) (posts : List Post) (st : St)
    (key : Post → Int)
    (hev : st.events = [])
    (hsort : posts.Pairwise fun a b => key b < key a) :
    (dispatchedPosts (pushover config posts st).events).Pairwise
      fun a b => key a < key b := by
  obtain ⟨l2, hsub, heq⟩ := pushoverList_dispatched config posts.reverse st
  have hpush : dispatchedPosts (pushover config posts st).events = l2 := by
    rw [show pushover config posts st = pushoverList config posts.reverse st from rfl,
      heq, hev]
    rfl
  rw [hpush]
  have hrev : posts.reverse.Pairwise fun a b => key a < key b :=
    List.pairwise_reverse.mpr hsort
  exact List.Pairwise.sublist hsub hrev

/-- Claim C2, witness: batch of posts b (created 200) then a (created
100), both novel and accepted; dispatch order is a then b. -/
theorem C2_dispatch_order_witness :
    (st0 [SendResult.ok respOK, SendResult.ok respOK] []).events = [] ∧
    ([pB, pA].Pairwise fun a b => createdKey b < createdKey a) ∧
    (dispatchedPosts (pushover cfg0 [pB, pA]
        (st0 [SendResult.ok respOK, SendResult.ok respOK] [])).events).Pairwise
      (fun a b => createdKey a < createdKey b) :=
  ⟨rfl, by decide,
    C2_dispatch_order cfg0 [pB, pA] (st0 [SendResult.ok respOK, SendResult.ok respOK] [])
      createdKey rfl (by decide)⟩

/-! Machinery for the no-duplicate-delivery invariant. -/

theorem deliveredCount_foundNew (l : List Event) (p : Post) (id : String) :
    deliveredCount (l ++ [Event.foundNew p]) id = deliveredCount l id := by
  rw [deliveredCount_append]
  simp [deliveredCount]

theorem sentForCount_foundNew (l : List Event) (p : Post) (id : String) :
    sentForCount (l ++ [Event.foundNew p]) id = sentForCount l id := by
  rw [sentForCount_append]
  simp [sentForCount]

theorem handleResp_spec (id : String) (resp : HttpResp) (st : St)
    (hops : st.storeOps = []) :
    ∃ l, (handleResp id resp st).events = st.events ++ l ∧
      (handleResp id resp st).storeOps = st.storeOps ∧
      (handleResp id resp st).panicked = st.panicked ∧
      (∀ q, Event.foundNew q ∉ l) ∧
      (∀ j pr, Event.sent j pr ∉ l) ∧
      (∀ j, Event.delivered j ∈ l → j = id) ∧
      (((handleResp id resp st).seen = st.seen ∧ deliveredCount l id = 0) ∨
       ((handleResp id resp st).seen = id :: st.seen ∧ deliveredCount l id = 1)) := by
  cases hsucc : resp.success with
  | false =>
      rw [handleResp_nosuccess id resp st hsucc]
      exact ⟨[], by simp, rfl, rfl, by simp, by simp, by simp,
        Or.inl ⟨rfl, by simp [deliveredCount]⟩⟩
  | true =>
      cases hbody : resp.body with
      | readError =>
          have h : handleResp id resp st = emit (Event.bodyReadErr id) st := by
            simp [handleResp, hsucc, hbody]
          rw [h]
          exact ⟨[Event.bodyReadErr id], by simp [emit], rfl, rfl, by simp, by simp,
            by simp, Or.inl ⟨rfl, by simp [deliveredCount]⟩⟩
      | parseError =>
          have h : handleResp id resp st = emit (Event.jsonErr id) st := by
            simp [handleResp, hsucc, hbody]
          rw [h]
          exact ⟨[Event.jsonErr id], by simp [emit], rfl, rfl, by simp, by simp,
            by simp, Or.inl ⟨rfl, by simp [deliveredCount]⟩⟩
      | parsed s =>
          by_cases hs : s = 1
          · have h : handleResp id resp st =
                markSeen id (emit (Event.delivered id) st) := by
              simp [handleResp, hsucc, hbody, hs]
            have hms := markSeen_ok id (emit (Event.delivered id) st)
              (by simpa [emit] using hops)
            rw [h, hms]
            refine ⟨[Event.delivered id, Event.pushedLog id], by simp [emit],
              by simp [emit], by simp [emit], by simp, by simp, ?_,
              Or.inr ⟨by simp [emit], by simp [deliveredCount]⟩⟩
            intro j hm
            rcases List.mem_cons.mp hm with h1 | h1
            · exact (Event.delivered.injEq j id).mp h1
            · simp at h1
          · have h : handleResp id resp st = st := by
              simp [handleResp, hsucc, hbody, hs]
            rw [h]
            exact ⟨[], by simp, rfl, rfl, by simp, by simp, by simp,
              Or.inl ⟨rfl, by simp [deliveredCount]⟩⟩

theorem sendLoop_SendOut (config : CONFIG) (p : Post) :
    ∀ (fuel : Nat) (st : St), st.storeOps = [] →
      ∃ l, SendOut p st (sendLoop config p fuel st) l := by
  intro fuel
  induction fuel with
  | zero =>
      intro st _
      exact ⟨[], (List.append_nil _).symm, rfl, rfl, by simp, by simp, by simp,
        Or.inl ⟨rfl, by simp [deliveredCount]⟩⟩
  | succ fuel ih =>
      intro st hops
      cases hnet : st.net with
      | nil =>
          rw [sendLoop_net_nil config p fuel st hnet]
          refine ⟨[Event.sent p.id (mkParams config p), Event.otherErr p.id],
            by simp [emit], rfl, rfl, by simp, ?_, by simp,
            Or.inl ⟨rfl, by simp [deliveredCount]⟩⟩
          intro j pr hm
          rcases List.mem_cons.mp hm with h1 | h1
          · exact ((Event.sent.injEq j pr p.id (mkParams config p)).mp h1).1
          · simp at h1
      | cons r rest =>
          cases r with
          | timeout =>
              rw [sendLoop_net_timeout config p fuel st rest hnet]
              obtain ⟨l2, hev2, hso2, hpk2, hfn2, hsent2, hdel2, hdisj2⟩ :=
                ih (emit (Event.timedOut p.id (POST_TIMEOUT_RETRY - fuel))
                  { emit (Event.sent p.id (mkParams config p)) st with net := rest })
                  (by simpa [emit] using hops)
              refine ⟨Event.sent p.id (mkParams config p) ::
                Event.timedOut p.id (POST_TIMEOUT_RETRY - fuel) :: l2,
                ?_, hso2, hpk2, ?_, ?_, ?_, ?_⟩
              · rw [hev2]; simp [emit]
              · intro q hm
                rcases List.mem_cons.mp hm with h1 | h1
                · exact absurd h1 (by simp)
                rcases List.mem_cons.mp h1 with h2 | h2
                · exact absurd h2 (by simp)
                · exact hfn2 q h2
              · intro j pr hm
                rcases List.mem_cons.mp hm with h1 | h1
                · exact ((Event.sent.injEq j pr p.id (mkParams config p)).mp h1).1
                rcases List.mem_cons.mp h1 with h2 | h2
                · exact absurd h2 (by simp)
                · exact hsent2 j pr h2
              · intro j hm
                rcases List.mem_cons.mp hm with h1 | h1
                · exact absurd h1 (by simp)
                rcases List.mem_cons.mp h1 with h2 | h2
                · exact absurd h2 (by simp)
                · exact hdel2 j h2
              · have hcnt : deliveredCount (Event.sent p.id (mkParams config p) ::
                    Event.timedOut p.id (POST_TIMEOUT_RETRY - fuel) :: l2) p.id =
                    deliveredCount l2 p.id := by simp [deliveredCount]
                rcases hdisj2 with ⟨hsE, hc⟩ | ⟨hsE, hc⟩
                · exact Or.inl ⟨hsE, by rw [hcnt]; exact hc⟩
                · exact Or.inr ⟨hsE, by rw [hcnt]; exact hc⟩
          | otherError =>
              rw [sendLoop_net_other config p fuel st rest hnet]
              refine ⟨[Event.sent p.id (mkParams config p), Event.otherErr p.id],
                by simp [emit], rfl, rfl, by simp, ?_, by simp,
                Or.inl ⟨rfl, by simp [deliveredCount]⟩⟩
              intro j pr hm
              rcases List.mem_cons.mp hm with h1 | h1
              · exact ((Event.sent.injEq j pr p.id (mkParams config p)).mp h1).1
              · simp at h1
          | ok resp =>
              rw [sendLoop_net_ok config p fuel st resp rest hnet]
              obtain ⟨l2, hev2, hso2, hpk2, hfn2, hsent2, hdel2, hdisj2⟩ :=
                handleResp_spec p.id resp
                  { emit (Event.sent p.id (mkParams config p)) st with net := rest }
                  (by simpa [emit] using hops)
              refine ⟨Event.sent p.id (mkParams config p) :: l2,
                ?_, hso2, hpk2, ?_, ?_, ?_, ?_⟩
              · rw [hev2]; simp [emit]
              · intro q hm
                rcases List.mem_cons.mp hm with h1 | h1
                · exact absurd h1 (by simp)
                · exact hfn2 q h1
              · intro j pr hm
                rcases List.mem_cons.mp hm with h1 | h1
                · exact ((Event.sent.injEq j pr p.id (mkParams config p)).mp h1).1
                · exact absurd h1 (hsent2 j pr)
              · intro j hm
                rcases List.mem_cons.mp hm with h1 | h1
                · exact absurd h1 (by simp)
                · exact hdel2 j h1
              · have hcnt : deliveredCount
                    (Event.sent p.id (mkParams config p) :: l2) p.id =
                    deliveredCount l2 p.id := by simp [deliveredCount]
                rcases hdisj2 with ⟨hsE, hc⟩ | ⟨hsE, hc⟩
                · exact Or.inl ⟨hsE, by rw [hcnt]; exact hc⟩
                · exact Or.inr ⟨hsE, by rw [hcnt]; exact hc⟩

theorem Inv_step (config : CONFIG) (id : String) (seen0 : Bool) (p : Post) (st : St)
    (hinv : Inv id seen0 st) (hseen : st.seen.contains p.id = false) :
    Inv id seen0
      (sendLoop config p POST_TIMEOUT_RETRY (emit (Event.foundNew p) st)) := by
  obtain ⟨hops, hpan, hle, hnone, hinit, hmark⟩ := hinv
  obtain ⟨l2, hev2, hso2, hpk2, _, hsent2, hdel2, hdisj2⟩ :=
    sendLoop_SendOut config p POST_TIMEOUT_RETRY (emit (Event.foundNew p) st)
      (by simpa [emit] using hops)
  set st2 := sendLoop config p POST_TIMEOUT_RETRY (emit (Event.foundNew p) st) with hst2
  have hev : st2.events = st.events ++ [Event.foundNew p] ++ l2 := by
    rw [hev2]; simp [emit]
  have hso : st2.storeOps = [] := by
    rw [hso2]; simpa [emit] using hops
  have hpk : st2.panicked = false := by
    rw [hpk2]; simpa [emit] using hpan
  by_cases hpid : p.id = id
  · subst hpid
    have hc0 : deliveredCount st.events p.id = 0 := hnone hseen
    have hseen0 : ¬seen0 = true := by
      intro h
      have hcontra := (hinit h).1
      rw [hcontra] at hseen
      exact absurd hseen (by simp)
    rcases hdisj2 with ⟨hsE, hc⟩ | ⟨hsE, hc⟩
    · have hcnt : deliveredCount st2.events p.id = 0 := by
        rw [hev, deliveredCount_append, deliveredCount_foundNew, hc0, hc]
      have hcont : st2.seen.contains p.id = false := by
        rw [hsE]
        simpa [emit] using hseen
      refine ⟨hso, hpk, by omega, fun _ => hcnt, fun h => absurd h hseen0, ?_⟩
      intro h
      rw [hcont] at h
      exact absurd h (by simp)
    · have hcnt : deliveredCount st2.events p.id = 1 := by
        rw [hev, deliveredCount_append, deliveredCount_foundNew, hc0, hc]
      refine ⟨hso, hpk, by omega, ?_, fun h => absurd h hseen0, fun _ => Or.inr hcnt⟩
      intro h
      rw [hsE, List.contains_cons] at h
      simp at h
  · have hbeq : (id == p.id) = false :=
      beq_eq_false_iff_ne.mpr (fun h => hpid h.symm)
    have hdl2 : deliveredCount l2 id = 0 := by
      apply deliveredCount_eq_zero
      intro hm
      exact hpid (hdel2 id hm).symm
    have hsl2 : sentForCount l2 id = 0 := by
      apply sentForCount_eq_zero
      intro pr hm
      exact hpid (hsent2 id pr hm).symm
    have hcnt : deliveredCount st2.events id = deliveredCount st.events id := by
      rw [hev, deliveredCount_append, deliveredCount_foundNew, hdl2]
      omega
    have hscnt : sentForCount st2.events id = sentForCount st.events id := by
      rw [hev, sentForCount_append, sentForCount_foundNew, hsl2]
      omega
    have hcont : st2.seen.contains id = st.seen.contains id := by
      rcases hdisj2 with ⟨hsE, _⟩ | ⟨hsE, _⟩
      · rw [hsE]; rfl
      · rw [hsE, List.contains_cons, hbeq]
        simp [emit]
    refine ⟨hso, hpk, ?_, ?_, ?_, ?_⟩
    · rw [hcnt]; exact hle
    · intro h
      rw [hcnt]
      exact hnone (by rwa [hcont] at h)
    · intro h
      refine ⟨by rw [hcont]; exact (hinit h).1, by rw [hscnt]; exact (hinit h).2⟩
    · intro h
      rcases hmark (by rwa [hcont] at h) with h1 | h1
      · exact Or.inl h1
      · exact Or.inr (by rw [hcnt]; exact h1)

theorem pushoverList_inv (config : CONFIG) (id : String) (seen0 : Bool) :
    ∀ (l : List Post) (st : St), Inv id seen0 st →
      Inv id seen0 (pushoverList config l st) := by
  intro l
  induction l with
  | nil => intro st hinv; exact hinv
  | cons p rest ih =>
      intro st hinv
      have hpan : st.panicked = false := hinv.2.1
      cases hseen : st.seen.contains p.id with
      | true =>
          rw [pushoverList_cons_seen config p rest st hpan hseen]
          exact ih st hinv
      | false =>
          rw [pushoverList_cons_new config p rest st hpan hseen]
          exact ih _ (Inv_step config id seen0 p st hinv hseen)

theorem pushover_inv (config : CONFIG) (id : String) (seen0 : Bool)
    (posts : List Post) (st : St) (hinv : Inv id seen0 st) :
    Inv id seen0 (pushover config posts st) :=
  pushoverList_inv config id seen0 posts.reverse st hinv

theorem runCycle_inv (config : CONFIG) (id : String) (seen0 : Bool)
    (r ps : Except String (List Post)) (st : St) (hinv : Inv id seen0 st) :
    Inv id seen0 (runCycle config r ps st) := by
  cases r with
  | error _ => exact hinv
  | ok posts =>
      cases ps with
      | error _ => exact hinv
      | ok po_posts => exact pushover_inv config id seen0 (posts ++ po_posts) st hinv

theorem runCycles_inv (config : CONFIG) (id : String) (seen0 : Bool) :
    ∀ (cycles : List (Except String (List Post) × Except String (List Post)))
      (st : St), Inv id seen0 st → Inv id seen0 (runCycles config cycles st) := by
  intro cycles
  induction cycles with
  | nil => intro st hinv; exact hinv
  | cons c rest ih =>
      intro st hinv
      exact ih _ (runCycle_inv config id seen0 c.1 c.2 st hinv)

/-- Claim C1: across any sequence of cycles with a correctly committing
store (empty failure schedule), a given post id is logically delivered at
most once; an id already in the store before the run receives no gateway
POST at all; and any id in the store at the end was either there at the
start or was delivered exactly once, i.e. markers are only written after
a confirmed delivery. -/
theorem C1_no_duplicate_delivery (config : CONFIG)
    (cycles : List (Except String (List Post) × Except String (List Post)))
    (st : St) (id : String)
    (hops : st.storeOps = []) (hpan : st.panicked = false)
    (hev : st.events = []) :
    deliveredCount (runCycles config cycles st).events id ≤ 1 ∧
    (st.seen.contains id = true →
      sentForCount (runCycles config cycles st).events id = 0) ∧
    ((runCycles config cycles st).seen.contains id = true →
      st.seen.contains id = true ∨
      deliveredCount (runCycles config cycles st).events id = 1) := by
  have hinv0 : Inv id (st.seen.contains id) st := by
    refine ⟨hops, hpan, ?_, ?_, ?_, ?_⟩
    · rw [hev]; simp [deliveredCount]
    · intro _; rw [hev]; simp [deliveredCount]
    · intro h; exact ⟨h, by rw [hev]; simp [sentForCount]⟩
    · intro h; exact Or.inl h
  obtain ⟨_, _, hle, _, hinit, hmark⟩ :=
    runCycles_inv config id (st.seen.contains id) cycles st hinv0
  exact ⟨hle, fun h => (hinit h).2, hmark⟩

/-- Claim C1, witness: two cycles both fetch post a; with the gateway
accepting, a is delivered in the first cycle only. -/
theorem C1_no_duplicate_delivery_witness :
    deliveredCount (runCycles cfg0
      [(Except.ok [pA], Except.ok []), (Except.ok [pA], Except.ok [])]
      (st0 [SendResult.ok respOK, SendResult.ok respOK] [])).events "a" ≤ 1 ∧
    ((st0 [SendResult.ok respOK, SendResult.ok respOK] []).seen.contains "a" = true →
      sentForCount (runCycles cfg0
        [(Except.ok [pA], Except.ok []), (Except.ok [pA], Except.ok [])]
        (st0 [SendResult.ok respOK, SendResult.ok respOK] [])).events "a" = 0) ∧
    ((runCycles cfg0
        [(Except.ok [pA], Except.ok []), (Except.ok [pA], Except.ok [])]
        (st0 [SendResult.ok respOK, SendResult.ok respOK] [])).seen.contains "a" = true →
      (st0 [SendResult.ok respOK, SendResult.ok respOK] []).seen.contains "a" = true ∨
      deliveredCount (runCycles cfg0
        [(Except.ok [pA], Except.ok []), (Except.ok [pA], Except.ok [])]
        (st0 [SendResult.ok respOK, SendResult.ok respOK] [])).events "a" = 1) :=
  C1_no_duplicate_delivery cfg0
    [(Except.ok [pA], Except.ok []), (Except.ok [pA], Except.ok [])]
    (st0 [SendResult.ok respOK, SendResult.ok respOK] []) "a" rfl rfl rfl

end SubNotif
